import Mathlib

/-!
Verification of the PyToxo model-solving engine against its specification.

The engine represents an epistasis model as a parametrized symbolic penetrance
table, derives genotype frequencies from minor allele frequencies (MAFs) under
Hardy-Weinberg equilibrium, builds symbolic prevalence and heritability
expressions, solves for the free parameters, materializes and verifies the
resulting numeric penetrance table.

The core solving modules are not shipped under src/ (only the README, the CLI
script, the example notebook with its recorded outputs, and Toxo output data
are), so the engine is modelled from the specification, with rational numbers
standing for the high-precision decimals the implementation uses.  The numeric
root-finding step of the Solver is abstracted as the candidate parameter pair
it returns; everything around it (validation, frequency derivation, statistics,
materialization, verification, table construction) is modelled explicitly.
-/

namespace PyToxo

/-- Modelled from the spec (section 9): symbolic risk expression over the free
parameters, a tagged-variant AST with nodes for constants, parameters,
addition, subtraction, multiplication and integer power. -/
inductive Expr where
  | const : ℚ → Expr
  | var : String → Expr
  | add : Expr → Expr → Expr
  | sub : Expr → Expr → Expr
  | mul : Expr → Expr → Expr
  | pow : Expr → Nat → Expr
deriving Repr, DecidableEq

/-- Evaluation of a symbolic expression under an assignment of the free
parameters. -/
def Expr.eval (env : String → ℚ) : Expr → ℚ
  | .const c => c
  | .var v => env v
  | .add a b => a.eval env + b.eval env
  | .sub a b => a.eval env - b.eval env
  | .mul a b => a.eval env * b.eval env
  | .pow a n => (a.eval env) ^ n

/-- Free-parameter symbols referenced by an expression. -/
def Expr.vars : Expr → List String
  | .const _ => []
  | .var v => [v]
  | .add a b => a.vars ++ b.vars
  | .sub a b => a.vars ++ b.vars
  | .mul a b => a.vars ++ b.vars
  | .pow a _ => a.vars

/-- Modelled from the spec: the recognized free-parameter set, conventionally
the baseline risk x and the relative-risk multiplier y. -/
def recognizedVariables : List String := ["x", "y"]

/-- Environment that assigns the solved candidate pair to the two free
parameters x and y. -/
def solEnv (sol : ℚ × ℚ) : String → ℚ :=
  fun v => if v = "x" then sol.1 else if v = "y" then sol.2 else 0

/-- Zygosity state of one locus. -/
inductive Zyg where
  | homMajor : Zyg
  | hetero : Zyg
  | homMinor : Zyg
deriving Repr, DecidableEq

/-- The three zygosity states, in the Model's fixed per-locus order. -/
def zygStates : List Zyg := [.homMajor, .hetero, .homMinor]

/-- Numeric index of a zygosity state (its minor-allele dosage at the locus). -/
def zygIdx : Zyg → Nat
  | .homMajor => 0
  | .hetero => 1
  | .homMinor => 2

/-- Modelled from the spec (Frequency Engine): the three per-locus zygosity
proportions under Hardy-Weinberg equilibrium. -/
def hwProportions (maf : ℚ) : List ℚ :=
  [(1 - maf) ^ 2, 2 * maf * (1 - maf), maf ^ 2]

/-- Hardy-Weinberg proportion of one zygosity state at a locus with the given
MAF. -/
def zygProportion (maf : ℚ) : Zyg → ℚ
  | .homMajor => (1 - maf) ^ 2
  | .hetero => 2 * maf * (1 - maf)
  | .homMinor => maf ^ 2

/-- Modelled from the spec (Frequency Engine): joint genotype frequencies as
the cartesian product of the per-locus Hardy-Weinberg proportions, in the
Model's genotype ordering (first locus most significant). -/
def genotypeFreqs : List ℚ → List ℚ
  | [] => [1]
  | maf :: rest =>
      (hwProportions maf).flatMap (fun p => (genotypeFreqs rest).map (fun q => p * q))

/-- All genotype combinations over n loci, in the Model's deterministic
ordering: lexicographic over locus-state tuples with the first locus most
significant. -/
def combos : Nat → List (List Zyg)
  | 0 => [[]]
  | n + 1 => zygStates.flatMap (fun z => (combos n).map (fun t => z :: t))

/-- Frequency of one multi-locus genotype combination: the product of its
per-locus Hardy-Weinberg proportions. -/
def comboFreq (mafs : List ℚ) (t : List Zyg) : ℚ :=
  ((mafs.zip t).map (fun p => zygProportion p.1 p.2)).prod

/-- Total minor-allele dosage of a genotype combination. -/
def dosage (t : List Zyg) : Nat := (t.map zygIdx).sum

/-- Sum of a list of symbolic expressions, as a symbolic expression. -/
def sumExpr (es : List Expr) : Expr := es.foldr Expr.add (Expr.const 0)

/-- Modelled from the spec (Population-Statistics Builder): the symbolic
prevalence expression, the frequency-weighted sum of the penetrance
expressions. -/
def prevalenceExpr (freqs : List ℚ) (pens : List Expr) : Expr :=
  sumExpr ((freqs.zip pens).map (fun fp => Expr.mul (Expr.const fp.1) fp.2))

/-- Modelled from the spec (Population-Statistics Builder): the symbolic second
moment of penetrance, the frequency-weighted sum of the squared penetrance
expressions. -/
def secondMomentExpr (freqs : List ℚ) (pens : List Expr) : Expr :=
  sumExpr ((freqs.zip pens).map (fun fp => Expr.mul (Expr.const fp.1) (Expr.pow fp.2 2)))

/-- Modelled from the spec (Population-Statistics Builder): the heritability of
the model at a parameter assignment, built from the symbolic prevalence and
second-moment expressions as variance over total phenotypic variance. -/
def heritabilityFromExprs (freqs : List ℚ) (pens : List Expr) (env : String → ℚ) : ℚ :=
  let p := (prevalenceExpr freqs pens).eval env
  ((secondMomentExpr freqs pens).eval env - p ^ 2) / (p * (1 - p))

/-- Numeric prevalence recomputed directly from a materialized penetrance table
and the genotype frequencies. -/
def prevalenceOf (freqs vals : List ℚ) : ℚ :=
  ((freqs.zip vals).map (fun fp => fp.1 * fp.2)).sum

/-- Numeric second moment recomputed directly from a materialized penetrance
table and the genotype frequencies. -/
def secondMomentOf (freqs vals : List ℚ) : ℚ :=
  ((freqs.zip vals).map (fun fp => fp.1 * fp.2 ^ 2)).sum

/-- Numeric heritability recomputed directly from a materialized penetrance
table and the genotype frequencies. -/
def heritabilityOf (freqs vals : List ℚ) : ℚ :=
  let p := prevalenceOf freqs vals
  (secondMomentOf freqs vals - p ^ 2) / (p * (1 - p))

/-- Epistasis model: a name, the number of loci, and parallel sequences of
genotype labels and symbolic penetrance expressions. -/
structure Model where
  name : Option String
  order : Nat
  genotypes : List String
  penetrances : List Expr
deriving Repr, DecidableEq

/-- The error taxonomy of the engine (spec section 7). -/
inductive PyToxoError where
  | MalformedModelError : PyToxoError
  | InvalidMAFError : PyToxoError
  | UnsolvableModelError : PyToxoError
  | NonConvergingSolutionError : PyToxoError
  | AccuracySolvingError : PyToxoError
deriving Repr, DecidableEq

/-- Integer logarithm base 3: the exponent k with 3 ^ k = n, when one exists. -/
def log3 (n : Nat) : Option Nat :=
  (List.range (n + 1)).find? (fun k => 3 ^ k == n)

/-- Modelled from the spec (Model construction): validates that the number of
genotype entries is a power of 3, that label lengths are consistent (two
characters per locus), and that every expression references only recognized
free-parameter symbols; fails with MalformedModelError otherwise. -/
def mkModel (pairs : List (String × Expr)) (name : Option String) :
    Except PyToxoError Model :=
  match log3 pairs.length with
  | none => .error .MalformedModelError
  | some k =>
      if pairs.all (fun p => p.1.length == 2 * k) then
        if pairs.all (fun p => p.2.vars.all (fun v => recognizedVariables.contains v)) then
          .ok ⟨name, k, pairs.map Prod.fst, pairs.map Prod.snd⟩
        else .error .MalformedModelError
      else .error .MalformedModelError

/-- Modelled from the spec: construction from a unified genotypes dictionary,
an ordered association of genotype labels to expressions. -/
def mkModelFromDict (pairs : List (String × Expr)) (name : Option String) :
    Except PyToxoError Model :=
  mkModel pairs name

/-- Modelled from the spec: construction from two parallel ordered sequences,
one of genotype definitions and one of probability expressions. -/
def mkModelFromLists (defs : List String) (probs : List Expr) (name : Option String) :
    Except PyToxoError Model :=
  if defs.length == probs.length then mkModel (defs.zip probs) name
  else .error .MalformedModelError

/-- Result penetrance table of a successful solve. -/
structure PTable where
  model_name : Option String
  order : Nat
  genotypes : List String
  penetrance_values : List ℚ
  solution : ℚ × ℚ
  prevalence : ℚ
  heritability : ℚ
deriving Repr, DecidableEq

/-- MAF vector validation: length equals the model order and every entry lies
strictly between 0 and 1. -/
def validMafs (order : Nat) (mafs : List ℚ) : Bool :=
  mafs.length == order && mafs.all (fun m => decide (0 < m) && decide (m < 1))

/-- Every materialized penetrance value lies in the closed interval [0, 1]. -/
def checkInterval (vals : List ℚ) : Bool :=
  vals.all (fun v => decide (0 ≤ v) && decide (v ≤ 1))

/-- Substitution of the solved parameter values into every genotype's
expression, in the Model's genotype ordering. -/
def materialize (pens : List Expr) (sol : ℚ × ℚ) : List ℚ :=
  pens.map (Expr.eval (solEnv sol))

/-- Modelled from the spec: find_max_prevalence_table, the solve with the
heritability target fixed.  The numeric root-finding step (missing from src/)
is abstracted as the candidate parameter pair sol it returns; the surrounding
pipeline is explicit: MAF validation, frequency derivation, materialization,
the penetrance interval constraint, and, unless disabled, verification of the
recomputed heritability against the target within tolerance. -/
def find_max_prevalence_table (m : Model) (mafs : List ℚ) (h : ℚ) (sol : ℚ × ℚ)
    (check : Bool) (tol : ℚ) : Except PyToxoError PTable :=
  if validMafs m.order mafs then
    if checkInterval (materialize m.penetrances sol) then
      if check && decide (tol <
          |heritabilityOf (genotypeFreqs mafs) (materialize m.penetrances sol) - h|) then
        .error .AccuracySolvingError
      else
        .ok ⟨m.name, m.order, m.genotypes, materialize m.penetrances sol, sol,
             prevalenceOf (genotypeFreqs mafs) (materialize m.penetrances sol),
             heritabilityOf (genotypeFreqs mafs) (materialize m.penetrances sol)⟩
    else .error .UnsolvableModelError
  else .error .InvalidMAFError

/-- Modelled from the spec: find_max_heritability_table, the solve with the
prevalence target fixed.  Same pipeline as find_max_prevalence_table, with the
verifier comparing the recomputed prevalence against the target. -/
def find_max_heritability_table (m : Model) (mafs : List ℚ) (p : ℚ) (sol : ℚ × ℚ)
    (check : Bool) (tol : ℚ) : Except PyToxoError PTable :=
  if validMafs m.order mafs then
    if checkInterval (materialize m.penetrances sol) then
      if check && decide (tol <
          |prevalenceOf (genotypeFreqs mafs) (materialize m.penetrances sol) - p|) then
        .error .AccuracySolvingError
      else
        .ok ⟨m.name, m.order, m.genotypes, materialize m.penetrances sol, sol,
             prevalenceOf (genotypeFreqs mafs) (materialize m.penetrances sol),
             heritabilityOf (genotypeFreqs mafs) (materialize m.penetrances sol)⟩
    else .error .UnsolvableModelError
  else .error .InvalidMAFError

/-! ### Basic lemmas about the embedding -/

theorem sumExpr_eval (env : String → ℚ) (es : List Expr) :
    (sumExpr es).eval env = (es.map (Expr.eval env)).sum := by
  induction es with
  | nil => simp [sumExpr, Expr.eval]
  | cons e es ih =>
      simp [sumExpr, Expr.eval] at ih ⊢
      rw [ih]

theorem sum_map_mul_left (c : ℚ) (l : List ℚ) :
    (l.map (fun q => c * q)).sum = c * l.sum := by
  induction l with
  | nil => simp
  | cons q l ih => simp [ih, mul_add]

theorem hwProportions_sum (maf : ℚ) : (hwProportions maf).sum = 1 := by
  simp [hwProportions]
  ring

theorem genotypeFreqs_sum (mafs : List ℚ) : (genotypeFreqs mafs).sum = 1 := by
  induction mafs with
  | nil => simp [genotypeFreqs]
  | cons maf rest ih =>
      have h := hwProportions_sum maf
      simp only [genotypeFreqs, hwProportions] at h ⊢
      simp only [List.flatMap_cons, List.flatMap_nil, List.sum_append, List.append_nil,
        sum_map_mul_left, ih, mul_one] at h ⊢
      simpa using h

theorem comboFreq_cons (maf : ℚ) (mafs : List ℚ) (z : Zyg) (t : List Zyg) :
    comboFreq (maf :: mafs) (z :: t) = zygProportion maf z * comboFreq mafs t := by
  simp [comboFreq, List.prod_cons]

theorem genotypeFreqs_eq_combos (mafs : List ℚ) :
    genotypeFreqs mafs = (combos mafs.length).map (comboFreq mafs) := by
  induction mafs with
  | nil => simp [genotypeFreqs, combos, comboFreq]
  | cons maf rest ih =>
      simp only [genotypeFreqs, List.length_cons, combos, zygStates, hwProportions]
      simp only [List.flatMap_cons, List.flatMap_nil, List.map_append, List.append_nil]
      congr 1
      · rw [ih, List.map_map, List.map_map]
        apply List.map_congr_left
        intro t _
        simp [Function.comp, comboFreq_cons, zygProportion]
      congr 1
      · rw [ih, List.map_map, List.map_map]
        apply List.map_congr_left
        intro t _
        simp [Function.comp, comboFreq_cons, zygProportion]
      · rw [ih, List.map_map, List.map_map]
        apply List.map_congr_left
        intro t _
        simp [Function.comp, comboFreq_cons, zygProportion]

theorem combos_length (n : Nat) : (combos n).length = 3 ^ n := by
  induction n with
  | zero => simp [combos]
  | succ n ih =>
      simp [combos, zygStates, List.length_flatMap, ih, pow_succ]
      ring

theorem genotypeFreqs_length (mafs : List ℚ) :
    (genotypeFreqs mafs).length = 3 ^ mafs.length := by
  rw [genotypeFreqs_eq_combos, List.length_map, combos_length]

theorem log3_spec {n k : Nat} (h : log3 n = some k) : 3 ^ k = n := by
  have := List.find?_some h
  simpa using this

theorem log3_eq_none {n : Nat} (h : ¬ ∃ k, n = 3 ^ k) : log3 n = none := by
  rw [log3, List.find?_eq_none]
  intro k _
  simp only [beq_iff_eq, Bool.not_eq_true]
  intro hk
  exact h ⟨k, hk.symm⟩

theorem mkModel_none {pairs : List (String × Expr)} {name : Option String}
    (hk : log3 pairs.length = none) :
    mkModel pairs name = .error .MalformedModelError := by
  rw [mkModel, hk]

theorem mkModel_some {pairs : List (String × Expr)} {name : Option String} {k : Nat}
    (hk : log3 pairs.length = some k) :
    mkModel pairs name =
      if pairs.all (fun p => p.1.length == 2 * k) then
        if pairs.all (fun p => p.2.vars.all (fun v => recognizedVariables.contains v)) then
          Except.ok ⟨name, k, pairs.map Prod.fst, pairs.map Prod.snd⟩
        else Except.error PyToxoError.MalformedModelError
      else Except.error PyToxoError.MalformedModelError := by
  rw [mkModel, hk]

theorem checkInterval_spec {vals : List ℚ} (h : checkInterval vals = true) :
    ∀ v ∈ vals, 0 ≤ v ∧ v ≤ 1 := by
  intro v hv
  rw [checkInterval, List.all_eq_true] at h
  have hb := h v hv
  simp only [Bool.and_eq_true, decide_eq_true_eq] at hb
  exact hb

/-! ### Claim theorems -/

/-- C1: for every model with genotype frequencies and penetrance expressions,
the Population-Statistics Builder's prevalence expression equals the sum over
genotypes of frequency times penetrance, and its heritability equals the sum of
frequency times squared penetrance, minus prevalence squared, divided by
prevalence times one minus prevalence. -/
theorem C1_population_statistics (freqs : List ℚ) (pens : List Expr) (env : String → ℚ) :
    (prevalenceExpr freqs pens).eval env
        = ((freqs.zip pens).map (fun fp => fp.1 * fp.2.eval env)).sum ∧
    heritabilityFromExprs freqs pens env
        = (((freqs.zip pens).map (fun fp => fp.1 * (fp.2.eval env) ^ 2)).sum
            - (((freqs.zip pens).map (fun fp => fp.1 * fp.2.eval env)).sum) ^ 2)
          / ((((freqs.zip pens).map (fun fp => fp.1 * fp.2.eval env)).sum)
              * (1 - ((freqs.zip pens).map (fun fp => fp.1 * fp.2.eval env)).sum)) := by
  have hp : (prevalenceExpr freqs pens).eval env
      = ((freqs.zip pens).map (fun fp => fp.1 * fp.2.eval env)).sum := by
    rw [prevalenceExpr, sumExpr_eval, List.map_map]
    rfl
  have hm : (secondMomentExpr freqs pens).eval env
      = ((freqs.zip pens).map (fun fp => fp.1 * (fp.2.eval env) ^ 2)).sum := by
    rw [secondMomentExpr, sumExpr_eval, List.map_map]
    rfl
  refine ⟨hp, ?_⟩
  simp only [heritabilityFromExprs, hp, hm]

/-- C2: for every MAF vector with entries in the open unit interval, the
Frequency Engine computes the per-locus Hardy-Weinberg proportions as stated,
computes each multi-locus genotype frequency as the product of that genotype's
per-locus proportions in the Model's genotype ordering, and the 3 ^ order
frequencies sum to 1 within 1e-9. -/
theorem C2_frequency_engine (mafs : List ℚ) (_hmafs : ∀ v ∈ mafs, 0 < v ∧ v < 1) :
    (∀ v ∈ mafs, hwProportions v = [(1 - v) ^ 2, 2 * v * (1 - v), v ^ 2]) ∧
    genotypeFreqs mafs = (combos mafs.length).map (comboFreq mafs) ∧
    (genotypeFreqs mafs).length = 3 ^ mafs.length ∧
    |(genotypeFreqs mafs).sum - 1| ≤ 1 / 10 ^ 9 := by
  refine ⟨fun v _ => rfl, genotypeFreqs_eq_combos mafs, genotypeFreqs_length mafs, ?_⟩
  rw [genotypeFreqs_sum]
  norm_num

/-- Witness for C2 at the concrete MAF vector [2/5, 1/2]. -/
theorem C2_frequency_engine_witness :
    (∀ v ∈ [(2 : ℚ)/5, 1/2], 0 < v ∧ v < 1) ∧
    (genotypeFreqs [(2 : ℚ)/5, 1/2] = (combos 2).map (comboFreq [(2 : ℚ)/5, 1/2]) ∧
     (genotypeFreqs [(2 : ℚ)/5, 1/2]).length = 3 ^ 2 ∧
     |(genotypeFreqs [(2 : ℚ)/5, 1/2]).sum - 1| ≤ 1 / 10 ^ 9) := by
  have hm : ∀ v ∈ [(2 : ℚ)/5, 1/2], 0 < v ∧ v < 1 := by
    intro v hv
    simp only [List.mem_cons, List.not_mem_nil, or_false] at hv
    rcases hv with rfl | rfl <;> norm_num
  have h := C2_frequency_engine [(2 : ℚ)/5, 1/2] hm
  exact ⟨hm, h.2.1, h.2.2.1, h.2.2.2⟩

/-- C6: model construction fails with MalformedModelError whenever the number
of genotype entries is not a power of 3, whenever genotype label lengths are
inconsistent, or whenever any expression references a symbol outside the
recognized free-parameter set; every successfully constructed model has
genotype and expression sequences of length exactly 3 ^ order. -/
theorem C6_model_validation (pairs : List (String × Expr)) (name : Option String) :
    ((¬ ∃ k, pairs.length = 3 ^ k) → mkModel pairs name = .error .MalformedModelError) ∧
    ((∃ p₁ ∈ pairs, ∃ p₂ ∈ pairs, p₁.1.length ≠ p₂.1.length) →
        mkModel pairs name = .error .MalformedModelError) ∧
    ((∃ p ∈ pairs, ∃ v ∈ p.2.vars, v ∉ recognizedVariables) →
        mkModel pairs name = .error .MalformedModelError) ∧
    (∀ m, mkModel pairs name = .ok m →
        m.genotypes.length = 3 ^ m.order ∧ m.penetrances.length = 3 ^ m.order) := by
  refine ⟨?_, ?_, ?_, ?_⟩
  · intro hnp
    rw [mkModel, log3_eq_none hnp]
  · rintro ⟨p₁, hp₁, p₂, hp₂, hne⟩
    cases hk : log3 pairs.length with
    | none => exact mkModel_none hk
    | some k =>
        have hall : ¬ (pairs.all (fun p => p.1.length == 2 * k) = true) := by
          intro hc
          rw [List.all_eq_true] at hc
          have h1 := hc p₁ hp₁
          have h2 := hc p₂ hp₂
          rw [beq_iff_eq] at h1 h2
          exact hne (h1.trans h2.symm)
        rw [mkModel_some hk, if_neg hall]
  · rintro ⟨p, hp, v, hv, hnr⟩
    cases hk : log3 pairs.length with
    | none => exact mkModel_none hk
    | some k =>
        cases hlen : pairs.all (fun p => p.1.length == 2 * k) with
        | false => rw [mkModel_some hk, if_neg (by rw [hlen]; exact Bool.false_ne_true)]
        | true =>
            have hall : ¬ (pairs.all
                (fun p => p.2.vars.all (fun v => recognizedVariables.contains v)) = true) := by
              intro hc
              rw [List.all_eq_true] at hc
              have h1 := hc p hp
              rw [List.all_eq_true] at h1
              have h2 := h1 v hv
              simp only [recognizedVariables] at h2 hnr
              simp at h2
              exact hnr (by simpa using h2)
            rw [mkModel_some hk, if_pos hlen, if_neg hall]
  · intro m hm
    cases hk : log3 pairs.length with
    | none => rw [mkModel_none hk] at hm; cases hm
    | some k =>
        rw [mkModel_some hk] at hm
        cases hlen : pairs.all (fun p => p.1.length == 2 * k) with
        | false => rw [hlen] at hm; rw [if_neg Bool.false_ne_true] at hm; cases hm
        | true =>
            rw [hlen, if_pos rfl] at hm
            cases hvars : pairs.all
                (fun p => p.2.vars.all (fun v => recognizedVariables.contains v)) with
            | false => rw [hvars, if_neg Bool.false_ne_true] at hm; cases hm
            | true =>
                rw [hvars, if_pos rfl] at hm
                simp only [Except.ok.injEq] at hm
                subst hm
                have h3 : 3 ^ k = pairs.length := log3_spec hk
                constructor <;> simp [h3]

/-- Single-locus scenario model penetrance expressions: x, x, x times 1 plus
y. -/
def slPens : List Expr :=
  [.var "x", .var "x", .mul (.var "x") (.add (.const 1) (.var "y"))]

/-- Single-locus scenario model with genotype labels AA, Aa, aa. -/
def slModel : Model := ⟨none, 1, ["AA", "Aa", "aa"], slPens⟩

/-- Witness for C6: a 2-entry model, a model with inconsistent label lengths
and a model with an unrecognized symbol are each rejected, and a valid
single-locus model construction yields sequences of length 3 ^ 1. -/
theorem C6_model_validation_witness :
    mkModel [("AA", Expr.var "x"), ("Aa", Expr.var "x")] none
        = .error .MalformedModelError ∧
    mkModel [("AA", Expr.var "x"), ("Aab", Expr.var "x"), ("aa", Expr.var "x")] none
        = .error .MalformedModelError ∧
    mkModel [("AA", Expr.var "z"), ("Aa", Expr.var "x"), ("aa", Expr.var "x")] none
        = .error .MalformedModelError ∧
    (slModel.genotypes.length = 3 ^ slModel.order ∧
     slModel.penetrances.length = 3 ^ slModel.order) := by
  refine ⟨?_, ?_, ?_, ?_⟩
  · exact (C6_model_validation [("AA", Expr.var "x"), ("Aa", Expr.var "x")] none).1
      (by
        rintro ⟨k, hk⟩
        cases k with
        | zero => simp at hk
        | succ j =>
            have h3 : 3 ≤ 3 ^ (j + 1) := Nat.le_self_pow (Nat.succ_ne_zero j) 3
            simp only [List.length_cons, List.length_nil] at hk
            omega)
  · exact (C6_model_validation _ none).2.1
      ⟨("AA", Expr.var "x"), by simp, ("Aab", Expr.var "x"), by simp, by decide⟩
  · exact (C6_model_validation _ none).2.2.1
      ⟨("AA", Expr.var "z"), by simp, "z", by simp [Expr.vars], by simp [recognizedVariables]⟩
  · exact (C6_model_validation [("AA", Expr.var "x"), ("Aa", Expr.var "x"),
      ("aa", Expr.mul (Expr.var "x") (Expr.add (Expr.const 1) (Expr.var "y")))] none).2.2.2
      slModel rfl

/-- C10: constructing a model from a unified genotypes dictionary is
equivalent to constructing it from two parallel sequences holding the same
genotype-to-expression pairs: the two construction paths return the same
result, and on success the models are identical, so every solve returns the
identical penetrance table from either model. -/
theorem C10_construction_equivalence (defs : List String) (probs : List Expr)
    (name : Option String) (hlen : defs.length = probs.length) :
    mkModelFromLists defs probs name = mkModelFromDict (defs.zip probs) name ∧
    (∀ m₁ m₂, mkModelFromLists defs probs name = .ok m₁ →
      mkModelFromDict (defs.zip probs) name = .ok m₂ →
      m₁ = m₂ ∧
      ∀ mafs target sol check tol,
        find_max_prevalence_table m₁ mafs target sol check tol
          = find_max_prevalence_table m₂ mafs target sol check tol ∧
        find_max_heritability_table m₁ mafs target sol check tol
          = find_max_heritability_table m₂ mafs target sol check tol) := by
  have heq : mkModelFromLists defs probs name = mkModelFromDict (defs.zip probs) name := by
    rw [mkModelFromLists, mkModelFromDict, if_pos (by rw [beq_iff_eq]; exact hlen)]
  refine ⟨heq, ?_⟩
  intro m₁ m₂ h₁ h₂
  rw [heq, h₂] at h₁
  simp only [Except.ok.injEq] at h₁
  subst h₁
  exact ⟨rfl, fun _ _ _ _ _ => ⟨rfl, rfl⟩⟩

/-- Witness for C10 at the concrete single-locus model given as two parallel
lists and as the corresponding association of pairs. -/
theorem C10_construction_equivalence_witness :
    mkModelFromLists ["AA", "Aa", "aa"] slPens none
        = mkModelFromDict (["AA", "Aa", "aa"].zip slPens) none ∧
    slModel = slModel := by
  have h := C10_construction_equivalence ["AA", "Aa", "aa"] slPens none rfl
  refine ⟨h.1, ?_⟩
  exact (h.2 slModel slModel rfl (by rw [← h.1]; rfl) ).1

/-! ### Solver pipeline lemmas -/

theorem find_max_prevalence_eq_ok {m : Model} {mafs : List ℚ} {h tol : ℚ}
    {sol : ℚ × ℚ} {check : Bool}
    (hv : validMafs m.order mafs = true)
    (hi : checkInterval (materialize m.penetrances sol) = true)
    (hacc : check = false ∨
      |heritabilityOf (genotypeFreqs mafs) (materialize m.penetrances sol) - h| ≤ tol) :
    find_max_prevalence_table m mafs h sol check tol =
      .ok ⟨m.name, m.order, m.genotypes, materialize m.penetrances sol, sol,
           prevalenceOf (genotypeFreqs mafs) (materialize m.penetrances sol),
           heritabilityOf (genotypeFreqs mafs) (materialize m.penetrances sol)⟩ := by
  have hb : (check && decide (tol <
      |heritabilityOf (genotypeFreqs mafs) (materialize m.penetrances sol) - h|)) = false := by
    rcases hacc with hc | hle
    · rw [hc, Bool.false_and]
    · rw [decide_eq_false (not_lt.mpr hle), Bool.and_false]
  rw [find_max_prevalence_table, if_pos hv]
  simp only [if_pos hi, hb, Bool.false_eq_true, if_false]

theorem find_max_heritability_eq_ok {m : Model} {mafs : List ℚ} {p tol : ℚ}
    {sol : ℚ × ℚ} {check : Bool}
    (hv : validMafs m.order mafs = true)
    (hi : checkInterval (materialize m.penetrances sol) = true)
    (hacc : check = false ∨
      |prevalenceOf (genotypeFreqs mafs) (materialize m.penetrances sol) - p| ≤ tol) :
    find_max_heritability_table m mafs p sol check tol =
      .ok ⟨m.name, m.order, m.genotypes, materialize m.penetrances sol, sol,
           prevalenceOf (genotypeFreqs mafs) (materialize m.penetrances sol),
           heritabilityOf (genotypeFreqs mafs) (materialize m.penetrances sol)⟩ := by
  have hb : (check && decide (tol <
      |prevalenceOf (genotypeFreqs mafs) (materialize m.penetrances sol) - p|)) = false := by
    rcases hacc with hc | hle
    · rw [hc, Bool.false_and]
    · rw [decide_eq_false (not_lt.mpr hle), Bool.and_false]
  rw [find_max_heritability_table, if_pos hv]
  simp only [if_pos hi, hb, Bool.false_eq_true, if_false]

/-! ### The single-locus scenario, computed concretely -/

/-- Result table of the single-locus scenario: MAF 1/2, boundary solution
x = 1/2, y = 1, giving penetrances [1/2, 1/2, 1], prevalence 5/8 and
heritability 1/5. -/
def slTable : PTable := ⟨none, 1, ["AA", "Aa", "aa"], [1/2, 1/2, 1], (1/2, 1), 5/8, 1/5⟩

theorem sl_validMafs : validMafs slModel.order [(1 : ℚ)/2] = true := by
  rw [validMafs]
  norm_num [slModel]

theorem sl_materialize : materialize slPens ((1 : ℚ)/2, 1) = [1/2, 1/2, 1] := by
  rw [materialize, slPens]
  simp [Expr.eval, solEnv]
  norm_num

theorem sl_freqs : genotypeFreqs [(1 : ℚ)/2] = [1/4, 1/2, 1/4] := by
  rw [genotypeFreqs, genotypeFreqs, hwProportions]
  norm_num

theorem sl_checkInterval : checkInterval (materialize slPens ((1 : ℚ)/2, 1)) = true := by
  rw [sl_materialize, checkInterval]
  norm_num

theorem sl_prevalence : prevalenceOf [1/4, 1/2, 1/4] [(1 : ℚ)/2, 1/2, 1] = 5/8 := by
  rw [prevalenceOf]
  norm_num

theorem sl_heritability : heritabilityOf [1/4, 1/2, 1/4] [(1 : ℚ)/2, 1/2, 1] = 1/5 := by
  rw [heritabilityOf, secondMomentOf, prevalenceOf]
  norm_num

theorem sl_solve_ok :
    find_max_prevalence_table slModel [(1 : ℚ)/2] (1/5) ((1 : ℚ)/2, 1) true (1/10^9)
      = .ok slTable := by
  have hmat : materialize slModel.penetrances ((1 : ℚ)/2, 1) = [1/2, 1/2, 1] := sl_materialize
  have hacc : |heritabilityOf (genotypeFreqs [(1 : ℚ)/2])
      (materialize slModel.penetrances ((1 : ℚ)/2, 1)) - 1/5| ≤ 1/10^9 := by
    rw [hmat, sl_freqs, sl_heritability]
    norm_num
  rw [find_max_prevalence_eq_ok sl_validMafs sl_checkInterval (Or.inr hacc)]
  rw [hmat, sl_freqs, sl_prevalence, sl_heritability]
  rfl

theorem find_max_prevalence_ok_inv {m : Model} {mafs : List ℚ} {h tol : ℚ}
    {sol : ℚ × ℚ} {check : Bool} {t : PTable}
    (ht : find_max_prevalence_table m mafs h sol check tol = .ok t) :
    validMafs m.order mafs = true ∧
    checkInterval (materialize m.penetrances sol) = true ∧
    t = ⟨m.name, m.order, m.genotypes, materialize m.penetrances sol, sol,
         prevalenceOf (genotypeFreqs mafs) (materialize m.penetrances sol),
         heritabilityOf (genotypeFreqs mafs) (materialize m.penetrances sol)⟩ ∧
    (check = true →
      |heritabilityOf (genotypeFreqs mafs) (materialize m.penetrances sol) - h| ≤ tol) := by
  rw [find_max_prevalence_table] at ht
  cases hv : validMafs m.order mafs with
  | false => rw [hv, if_neg Bool.false_ne_true] at ht; cases ht
  | true =>
      rw [hv, if_pos rfl] at ht
      cases hi : checkInterval (materialize m.penetrances sol) with
      | false => rw [hi, if_neg Bool.false_ne_true] at ht; cases ht
      | true =>
          rw [hi, if_pos rfl] at ht
          cases hb : (check && decide (tol <
              |heritabilityOf (genotypeFreqs mafs) (materialize m.penetrances sol) - h|)) with
          | true => rw [hb, if_pos rfl] at ht; cases ht
          | false =>
              rw [hb, if_neg Bool.false_ne_true] at ht
              simp only [Except.ok.injEq] at ht
              refine ⟨rfl, rfl, ht.symm, ?_⟩
              intro hc
              rw [hc, Bool.true_and, decide_eq_false_iff_not, not_lt] at hb
              exact hb

theorem find_max_heritability_ok_inv {m : Model} {mafs : List ℚ} {p tol : ℚ}
    {sol : ℚ × ℚ} {check : Bool} {t : PTable}
    (ht : find_max_heritability_table m mafs p sol check tol = .ok t) :
    validMafs m.order mafs = true ∧
    checkInterval (materialize m.penetrances sol) = true ∧
    t = ⟨m.name, m.order, m.genotypes, materialize m.penetrances sol, sol,
         prevalenceOf (genotypeFreqs mafs) (materialize m.penetrances sol),
         heritabilityOf (genotypeFreqs mafs) (materialize m.penetrances sol)⟩ ∧
    (check = true →
      |prevalenceOf (genotypeFreqs mafs) (materialize m.penetrances sol) - p| ≤ tol) := by
  rw [find_max_heritability_table] at ht
  cases hv : validMafs m.order mafs with
  | false => rw [hv, if_neg Bool.false_ne_true] at ht; cases ht
  | true =>
      rw [hv, if_pos rfl] at ht
      cases hi : checkInterval (materialize m.penetrances sol) with
      | false => rw [hi, if_neg Bool.false_ne_true] at ht; cases ht
      | true =>
          rw [hi, if_pos rfl] at ht
          cases hb : (check && decide (tol <
              |prevalenceOf (genotypeFreqs mafs) (materialize m.penetrances sol) - p|)) with
          | true => rw [hb, if_pos rfl] at ht; cases ht
          | false =>
              rw [hb, if_neg Bool.false_ne_true] at ht
              simp only [Except.ok.injEq] at ht
              refine ⟨rfl, rfl, ht.symm, ?_⟩
              intro hc
              rw [hc, Bool.true_and, decide_eq_false_iff_not, not_lt] at hb
              exact hb

/-- Strict order on zygosity states by minor-allele dosage. -/
def zygLt (a b : Zyg) : Prop := zygIdx a < zygIdx b

theorem combos_pairwise (n : Nat) : (combos n).Pairwise (List.Lex zygLt) := by
  induction n with
  | zero => simp [combos]
  | succ n ih =>
      have hblock : ∀ z : Zyg, ((combos n).map (fun t => z :: t)).Pairwise (List.Lex zygLt) := by
        intro z
        rw [List.pairwise_map]
        exact ih.imp (fun hl => List.Lex.cons hl)
      have hcross : ∀ z₁ z₂ : Zyg, zygLt z₁ z₂ →
          ∀ a ∈ (combos n).map (fun t => z₁ :: t),
          ∀ b ∈ (combos n).map (fun t => z₂ :: t), List.Lex zygLt a b := by
        intro z₁ z₂ hz a ha b hb
        obtain ⟨ta, _, rfl⟩ := List.mem_map.mp ha
        obtain ⟨tb, _, rfl⟩ := List.mem_map.mp hb
        exact List.Lex.rel hz
      rw [combos, zygStates]
      simp only [List.flatMap_cons, List.flatMap_nil, List.append_nil]
      rw [List.pairwise_append]
      refine ⟨hblock _, ?_, ?_⟩
      · rw [List.pairwise_append]
        refine ⟨hblock _, hblock _, ?_⟩
        exact hcross .hetero .homMinor (by norm_num [zygLt, zygIdx])
      · intro a ha b hb
        rw [List.mem_append] at hb
        rcases hb with hb | hb
        · exact hcross .homMajor .hetero (by norm_num [zygLt, zygIdx]) a ha b hb
        · exact hcross .homMajor .homMinor (by norm_num [zygLt, zygIdx]) a ha b hb

/-- C3: for every successful solve of either operation, every penetrance value
in the returned table lies in the closed interval from 0 to 1 and the table
inherits exactly the Model's genotype label ordering; the canonical genotype
enumeration underlying that ordering is strictly lexicographic over locus-state
tuples, hence deterministic. -/
theorem C3_result_table_invariants :
    (∀ (m : Model) (mafs : List ℚ) (target : ℚ) (sol : ℚ × ℚ) (check : Bool) (tol : ℚ)
        (t : PTable),
      (find_max_prevalence_table m mafs target sol check tol = .ok t ∨
       find_max_heritability_table m mafs target sol check tol = .ok t) →
      (∀ v ∈ t.penetrance_values, 0 ≤ v ∧ v ≤ 1) ∧ t.genotypes = m.genotypes) ∧
    (∀ n : Nat, (combos n).Pairwise (List.Lex zygLt)) := by
  constructor
  · intro m mafs target sol check tol t hok
    have key : checkInterval (materialize m.penetrances sol) = true ∧
        t.penetrance_values = materialize m.penetrances sol ∧
        t.genotypes = m.genotypes := by
      rcases hok with h | h
      · obtain ⟨_, hi, ht, _⟩ := find_max_prevalence_ok_inv h
        exact ⟨hi, by rw [ht], by rw [ht]⟩
      · obtain ⟨_, hi, ht, _⟩ := find_max_heritability_ok_inv h
        exact ⟨hi, by rw [ht], by rw [ht]⟩
    obtain ⟨hi, hpv, hg⟩ := key
    refine ⟨?_, hg⟩
    rw [hpv]
    exact checkInterval_spec hi
  · exact combos_pairwise

/-- Witness for C3 at the single-locus scenario solve. -/
theorem C3_result_table_invariants_witness :
    (∀ v ∈ slTable.penetrance_values, 0 ≤ v ∧ v ≤ 1) ∧
    slTable.genotypes = slModel.genotypes :=
  C3_result_table_invariants.1 slModel [(1 : ℚ)/2] (1/5) ((1 : ℚ)/2, 1) true (1/10^9)
    slTable (Or.inl sl_solve_ok)

/-- C4: on every successful solve with verification enabled, the stored
statistics are exactly the ones recomputed from the materialized numeric table
and the genotype frequencies, and the recomputed fixed statistic reproduces the
target within the tolerance; when the recomputed fixed statistic differs from
the target beyond tolerance the solve fails with AccuracySolvingError instead
of returning the table; and with verification explicitly disabled an
AccuracySolvingError is never raised. -/
theorem C4_verification (m : Model) (mafs : List ℚ) (target : ℚ) (sol : ℚ × ℚ) (tol : ℚ) :
    (∀ t, find_max_prevalence_table m mafs target sol true tol = .ok t →
        t.penetrance_values = materialize m.penetrances sol ∧
        t.prevalence = prevalenceOf (genotypeFreqs mafs) t.penetrance_values ∧
        t.heritability = heritabilityOf (genotypeFreqs mafs) t.penetrance_values ∧
        |t.heritability - target| ≤ tol) ∧
    (∀ t, find_max_heritability_table m mafs target sol true tol = .ok t →
        t.penetrance_values = materialize m.penetrances sol ∧
        t.prevalence = prevalenceOf (genotypeFreqs mafs) t.penetrance_values ∧
        t.heritability = heritabilityOf (genotypeFreqs mafs) t.penetrance_values ∧
        |t.prevalence - target| ≤ tol) ∧
    (validMafs m.order mafs = true →
      checkInterval (materialize m.penetrances sol) = true →
      tol < |heritabilityOf (genotypeFreqs mafs) (materialize m.penetrances sol) - target| →
      find_max_prevalence_table m mafs target sol true tol = .error .AccuracySolvingError) ∧
    (validMafs m.order mafs = true →
      checkInterval (materialize m.penetrances sol) = true →
      tol < |prevalenceOf (genotypeFreqs mafs) (materialize m.penetrances sol) - target| →
      find_max_heritability_table m mafs target sol true tol = .error .AccuracySolvingError) ∧
    (find_max_prevalence_table m mafs target sol false tol ≠ .error .AccuracySolvingError ∧
     find_max_heritability_table m mafs target sol false tol ≠ .error .AccuracySolvingError) := by
  refine ⟨?_, ?_, ?_, ?_, ?_, ?_⟩
  · intro t ht
    obtain ⟨_, _, hteq, hacc⟩ := find_max_prevalence_ok_inv ht
    refine ⟨by rw [hteq], by rw [hteq], by rw [hteq], ?_⟩
    rw [hteq]
    exact hacc rfl
  · intro t ht
    obtain ⟨_, _, hteq, hacc⟩ := find_max_heritability_ok_inv ht
    refine ⟨by rw [hteq], by rw [hteq], by rw [hteq], ?_⟩
    rw [hteq]
    exact hacc rfl
  · intro hv hi hgt
    rw [find_max_prevalence_table, if_pos hv, if_pos hi,
      if_pos (by rw [Bool.true_and]; exact decide_eq_true hgt)]
  · intro hv hi hgt
    rw [find_max_heritability_table, if_pos hv, if_pos hi,
      if_pos (by rw [Bool.true_and]; exact decide_eq_true hgt)]
  · rw [find_max_prevalence_table]
    split
    · split
      · simp
      · simp
    · simp
  · rw [find_max_heritability_table]
    split
    · split
      · simp
      · simp
    · simp

/-- Witness for C4: the single-locus solve succeeds with verified statistics
at target 1/5, fails with AccuracySolvingError at the mismatched target 1/2,
and never raises AccuracySolvingError when checking is disabled. -/
theorem C4_verification_witness :
    (slTable.penetrance_values = materialize slModel.penetrances ((1 : ℚ)/2, 1) ∧
     slTable.prevalence = prevalenceOf (genotypeFreqs [(1 : ℚ)/2]) slTable.penetrance_values ∧
     slTable.heritability = heritabilityOf (genotypeFreqs [(1 : ℚ)/2]) slTable.penetrance_values ∧
     |slTable.heritability - 1/5| ≤ 1/10^9) ∧
    find_max_prevalence_table slModel [(1 : ℚ)/2] (1/2) ((1 : ℚ)/2, 1) true (1/10^9)
      = .error .AccuracySolvingError ∧
    find_max_prevalence_table slModel [(1 : ℚ)/2] (1/2) ((1 : ℚ)/2, 1) false (1/10^9)
      ≠ .error .AccuracySolvingError := by
  refine ⟨?_, ?_, ?_⟩
  · exact (C4_verification slModel [(1 : ℚ)/2] (1/5) ((1 : ℚ)/2, 1) (1/10^9)).1
      slTable sl_solve_ok
  · refine (C4_verification slModel [(1 : ℚ)/2] (1/2) ((1 : ℚ)/2, 1) (1/10^9)).2.2.1
      sl_validMafs sl_checkInterval ?_
    have hmat : materialize slModel.penetrances ((1 : ℚ)/2, 1) = [1/2, 1/2, 1] :=
      sl_materialize
    rw [hmat, sl_freqs, sl_heritability]
    norm_num
    rw [abs_of_nonneg (by norm_num : (0 : ℚ) ≤ 3/10)]
    norm_num
  · exact (C4_verification slModel [(1 : ℚ)/2] (1/2) ((1 : ℚ)/2, 1) (1/10^9)).2.2.2.2.1

/-- C7: for both solve operations, a MAF vector with an entry at or outside the
open unit interval, or of the wrong length, is rejected with InvalidMAFError
before any solving step, and no table is produced. -/
theorem C7_invalid_maf_rejection (m : Model) (mafs : List ℚ) (target : ℚ)
    (sol : ℚ × ℚ) (check : Bool) (tol : ℚ)
    (hbad : mafs.length ≠ m.order ∨ ∃ v ∈ mafs, v ≤ 0 ∨ 1 ≤ v) :
    find_max_prevalence_table m mafs target sol check tol = .error .InvalidMAFError ∧
    find_max_heritability_table m mafs target sol check tol = .error .InvalidMAFError := by
  have hv : ¬ (validMafs m.order mafs = true) := by
    intro hc
    rw [validMafs, Bool.and_eq_true, List.all_eq_true] at hc
    obtain ⟨h1, h2⟩ := hc
    rcases hbad with hlen | ⟨v, hvm, hle⟩
    · rw [beq_iff_eq] at h1
      exact hlen h1
    · have hb := h2 v hvm
      rw [Bool.and_eq_true, decide_eq_true_eq, decide_eq_true_eq] at hb
      rcases hle with hle | hle
      · linarith [hb.1]
      · linarith [hb.2]
  constructor
  · rw [find_max_prevalence_table, if_neg hv]
  · rw [find_max_heritability_table, if_neg hv]

/-! ### The solver's boundary curve for the single-locus model -/

/-- Modelled from the spec (Solver): for the single-locus model the solver's
closed-form substitution sets the largest penetrance expression x times 1 plus
y equal to 1, expressing x as the reciprocal of 1 plus y; the achieved
statistics along this boundary curve are functions of the remaining free
parameter y. -/
def slBoundarySol (y : ℚ) : ℚ × ℚ := (1/(1+y), y)

/-- Prevalence achieved by the max-prevalence solve of the single-locus model
with MAF 1/2 at boundary parameter y. -/
def slAchievedPrevalence (y : ℚ) : ℚ :=
  prevalenceOf (genotypeFreqs [1/2]) (materialize slPens (slBoundarySol y))

/-- Heritability achieved along the same boundary curve at parameter y. -/
def slAchievedHeritability (y : ℚ) : ℚ :=
  heritabilityOf (genotypeFreqs [1/2]) (materialize slPens (slBoundarySol y))

theorem slBoundary_materialize (y : ℚ) :
    materialize slPens (slBoundarySol y) =
      [1/(1+y), 1/(1+y), (1/(1+y)) * (1+y)] := by
  rw [materialize, slPens, slBoundarySol]
  simp [Expr.eval, solEnv]

theorem slP_closed (y : ℚ) (hy : 0 < y) :
    slAchievedPrevalence y = (4+y) / (4*(1+y)) := by
  have h1 : (1 : ℚ) + y ≠ 0 := by positivity
  rw [slAchievedPrevalence, slBoundary_materialize, sl_freqs, prevalenceOf]
  simp only [List.zip_cons_cons, List.zip_nil_right, List.map_cons, List.map_nil,
    List.sum_cons, List.sum_nil]
  field_simp
  ring

theorem slH_closed (y : ℚ) (hy : 0 < y) :
    slAchievedHeritability y = y / (4+y) := by
  have h1 : (1 : ℚ) + y ≠ 0 := by positivity
  have h4 : (4 : ℚ) + y ≠ 0 := by positivity
  have hy0 : y ≠ 0 := ne_of_gt hy
  rw [slAchievedHeritability, slBoundary_materialize, sl_freqs, heritabilityOf,
    secondMomentOf, prevalenceOf]
  simp only [List.zip_cons_cons, List.zip_nil_right, List.map_cons, List.map_nil,
    List.sum_cons, List.sum_nil]
  rw [div_eq_div_iff]
  · field_simp
    ring
  · have hval : (1/4 * (1/(1+y)) + (1/2 * (1/(1+y)) + (1/4 * ((1/(1+y)) * (1+y)) + 0)))
        * (1 - (1/4 * (1/(1+y)) + (1/2 * (1/(1+y)) + (1/4 * ((1/(1+y)) * (1+y)) + 0))))
        = (4+y) * (3*y) / (16 * (1+y)^2) := by
      field_simp
      ring
    rw [hval]
    positivity
  · exact h4

theorem sl3_materialize : materialize slModel.penetrances ((1 : ℚ)/4, 3) = [1/4, 1/4, 1] := by
  rw [show slModel.penetrances = slPens from rfl, materialize, slPens]
  simp [Expr.eval, solEnv]
  norm_num

theorem sl3_checkInterval : checkInterval (materialize slModel.penetrances ((1 : ℚ)/4, 3))
    = true := by
  rw [sl3_materialize, checkInterval]
  norm_num

theorem sl3_prevalence : prevalenceOf [1/4, 1/2, 1/4] [(1 : ℚ)/4, 1/4, 1] = 7/16 := by
  rw [prevalenceOf]
  norm_num

theorem sl3_heritability : heritabilityOf [1/4, 1/2, 1/4] [(1 : ℚ)/4, 1/4, 1] = 3/7 := by
  rw [heritabilityOf, secondMomentOf, prevalenceOf]
  norm_num

theorem sl3_solve_ok :
    find_max_prevalence_table slModel [(1 : ℚ)/2] (3/7) ((1 : ℚ)/4, 3) true (1/10^9)
      = .ok ⟨none, 1, ["AA", "Aa", "aa"], [1/4, 1/4, 1], (1/4, 3), 7/16, 3/7⟩ := by
  have hacc : |heritabilityOf (genotypeFreqs [(1 : ℚ)/2])
      (materialize slModel.penetrances ((1 : ℚ)/4, 3)) - 3/7| ≤ 1/10^9 := by
    rw [sl3_materialize, sl_freqs, sl3_heritability]
    norm_num
  rw [find_max_prevalence_eq_ok sl_validMafs sl3_checkInterval (Or.inr hacc)]
  rw [sl3_materialize, sl_freqs, sl3_prevalence, sl3_heritability]
  rfl

/-- C8 refutation: for the single-locus model with MAF 1/2, raising the
heritability target from 1/5 to 3/7 makes the max-prevalence solve, evaluated
at the solver's boundary solutions (largest penetrance pinned at 1 and the
recomputed heritability matching the target exactly), return a strictly
smaller prevalence: 7/16 instead of 5/8.  So increasing the heritability
target does decrease the achieved maximum prevalence. -/
theorem C8_counterexample :
    ((1 : ℚ)/5 < 3/7) ∧
    slBoundarySol 1 = ((1 : ℚ)/2, 1) ∧
    slBoundarySol 3 = ((1 : ℚ)/4, 3) ∧
    find_max_prevalence_table slModel [(1 : ℚ)/2] (1/5) ((1 : ℚ)/2, 1) true (1/10^9)
      = .ok ⟨none, 1, ["AA", "Aa", "aa"], [1/2, 1/2, 1], (1/2, 1), 5/8, 1/5⟩ ∧
    find_max_prevalence_table slModel [(1 : ℚ)/2] (3/7) ((1 : ℚ)/4, 3) true (1/10^9)
      = .ok ⟨none, 1, ["AA", "Aa", "aa"], [1/4, 1/4, 1], (1/4, 3), 7/16, 3/7⟩ ∧
    ((7 : ℚ)/16 < 5/8) := by
  refine ⟨by norm_num, ?_, ?_, sl_solve_ok, sl3_solve_ok, by norm_num⟩
  · rw [slBoundarySol]
    norm_num
  · rw [slBoundarySol]
    norm_num

/-- C8 as amended: along the solver's boundary curve for a fixed model and
MAFs, the two statistics trade off in opposite directions: as the remaining
free parameter grows the achieved heritability does not decrease while the
achieved maximum prevalence does not increase.  Hence increasing the requested
heritability target does not increase (rather than not decrease) the solved
maximum prevalence, and increasing the requested prevalence target does not
increase the solved maximum heritability. -/
theorem C8_tradeoff_monotonicity (y₁ y₂ : ℚ) (h₁ : 0 < y₁) (h₂ : y₁ ≤ y₂) :
    slAchievedHeritability y₁ ≤ slAchievedHeritability y₂ ∧
    slAchievedPrevalence y₂ ≤ slAchievedPrevalence y₁ := by
  have h₂' : (0 : ℚ) < y₂ := lt_of_lt_of_le h₁ h₂
  rw [slH_closed y₁ h₁, slH_closed y₂ h₂', slP_closed y₁ h₁, slP_closed y₂ h₂']
  constructor
  · rw [div_le_div_iff₀ (by linarith) (by linarith)]
    nlinarith
  · rw [div_le_div_iff₀ (by positivity) (by positivity)]
    nlinarith

/-- Witness for the amended C8 at boundary parameters 1 and 3. -/
theorem C8_tradeoff_monotonicity_witness :
    ((0 : ℚ) < 1 ∧ (1 : ℚ) ≤ 3) ∧
    (slAchievedHeritability 1 ≤ slAchievedHeritability 3 ∧
     slAchievedPrevalence 3 ≤ slAchievedPrevalence 1) :=
  ⟨⟨by norm_num, by norm_num⟩, C8_tradeoff_monotonicity 1 3 (by norm_num) (by norm_num)⟩

/-! ### The order-3 additive model scenario -/

/-- Penetrance expression of the additive model at total minor-allele dosage
k: x times the k-th power of 1 plus y. -/
def a3pen (k : Nat) : Expr :=
  Expr.mul (.var "x") (.pow (.add (.const 1) (.var "y")) k)

/-- Genotype labels of the order-3 additive model, in the Model's ordering. -/
def additive3Genotypes : List String :=
  ["AABBCC", "AABBCc", "AABBcc", "AABbCC", "AABbCc", "AABbcc",
   "AAbbCC", "AAbbCc", "AAbbcc", "AaBBCC", "AaBBCc", "AaBBcc",
   "AaBbCC", "AaBbCc", "AaBbcc", "AabbCC", "AabbCc", "Aabbcc",
   "aaBBCC", "aaBBCc", "aaBBcc", "aaBbCC", "aaBbCc", "aaBbcc",
   "aabbCC", "aabbCc", "aabbcc"]

/-- The 27 penetrance expressions of the order-3 additive model: each genotype
combination gets x times 1 plus y raised to its total minor-allele dosage. -/
def additive3Penetrances : List Expr :=
  (combos 3).map (fun t => a3pen (dosage t))

/-- The order-3 additive model additive_3 of the example notebook. -/
def additive3Model : Model := ⟨some "additive_3", 3, additive3Genotypes, additive3Penetrances⟩

theorem additive3Penetrances_eq :
    additive3Penetrances =
      [a3pen 0, a3pen 1, a3pen 2, a3pen 1, a3pen 2, a3pen 3,
       a3pen 2, a3pen 3, a3pen 4, a3pen 1, a3pen 2, a3pen 3,
       a3pen 2, a3pen 3, a3pen 4, a3pen 3, a3pen 4, a3pen 5,
       a3pen 2, a3pen 3, a3pen 4, a3pen 3, a3pen 4, a3pen 5,
       a3pen 4, a3pen 5, a3pen 6] := by
  rfl

/-- The documented reference value of the free parameter y for the additive_3
max-prevalence solve at MAFs 0.4 and heritability 0.85. -/
def c5y : ℚ := 528760766072850 / 10^13

/-- The solver candidate for the additive_3 scenario: the boundary
substitution pins the largest penetrance x times 1 plus y to the sixth power
at 1, so x is the reciprocal of 1 plus y to the sixth power. -/
def c5sol : ℚ × ℚ := (1/(1+c5y)^6, c5y)

/-- Numeric penetrance of the additive_3 scenario at dosage k. -/
def c5val (k : Nat) : ℚ := 1/(1+c5y)^6 * (1+c5y)^k

theorem c5_materialize :
    materialize additive3Model.penetrances c5sol =
      [c5val 0, c5val 1, c5val 2, c5val 1, c5val 2, c5val 3,
       c5val 2, c5val 3, c5val 4, c5val 1, c5val 2, c5val 3,
       c5val 2, c5val 3, c5val 4, c5val 3, c5val 4, c5val 5,
       c5val 2, c5val 3, c5val 4, c5val 3, c5val 4, c5val 5,
       c5val 4, c5val 5, c5val 6] := by
  rw [show additive3Model.penetrances = additive3Penetrances from rfl,
    additive3Penetrances_eq, materialize]
  simp [a3pen, Expr.eval, solEnv, c5val, c5sol]

theorem c5_freqs :
    genotypeFreqs [(2 : ℚ)/5, 2/5, 2/5] =
      [729/15625, 972/15625, 324/15625, 972/15625, 1296/15625, 432/15625,
       324/15625, 432/15625, 144/15625, 972/15625, 1296/15625, 432/15625,
       1296/15625, 1728/15625, 576/15625, 432/15625, 576/15625, 192/15625,
       324/15625, 432/15625, 144/15625, 432/15625, 576/15625, 192/15625,
       144/15625, 192/15625, 64/15625] := by
  simp [genotypeFreqs, hwProportions]
  norm_num

theorem c5_checkInterval :
    checkInterval (materialize additive3Model.penetrances c5sol) = true := by
  rw [c5_materialize, checkInterval]
  simp only [List.all_cons, List.all_nil, Bool.and_eq_true, decide_eq_true_eq, Bool.and_true]
  norm_num [c5val, c5y]

theorem c5_stats :
    |prevalenceOf (genotypeFreqs [(2 : ℚ)/5, 2/5, 2/5])
        (materialize additive3Model.penetrances c5sol) - 48/10^4| ≤ 1/10^4 ∧
    |prevalenceOf (genotypeFreqs [(2 : ℚ)/5, 2/5, 2/5])
        (materialize additive3Model.penetrances c5sol) - 482966795815766/10^17| ≤ 1/10^16 ∧
    |heritabilityOf (genotypeFreqs [(2 : ℚ)/5, 2/5, 2/5])
        (materialize additive3Model.penetrances c5sol) - 85/100| ≤ 1/10^12 := by
  rw [c5_materialize, c5_freqs]
  refine ⟨?_, ?_, ?_⟩
  · rw [prevalenceOf, abs_le]
    constructor <;> norm_num [c5val, c5y]
  · rw [prevalenceOf, abs_le]
    constructor <;> norm_num [c5val, c5y]
  · rw [heritabilityOf, secondMomentOf, prevalenceOf, abs_le]
    constructor <;> norm_num [c5val, c5y]

theorem c5_x_close : |c5sol.1 - 408906702591303/10^25| ≤ 1/10^25 := by
  rw [show c5sol.1 = 1/(1+c5y)^6 from rfl, abs_le]
  constructor <;> norm_num [c5y]

/-- C5: for the order-3 additive model (27 genotype expressions, x times 1
plus y raised to the genotype's total minor-allele dosage) with MAF vector
[0.4, 0.4, 0.4] and target heritability 0.85, the max-prevalence solve at the
solver's boundary candidate succeeds, its achieved prevalence is within 1e-4
of 0.0048 and matches the documented reference value 0.00482966795815766, its
verified heritability matches 0.85 within tolerance, and the solved parameters
match the documented x = 4.08906702591303e-11 and y = 52.8760766072850. -/
theorem C5_additive3_scenario :
    ∃ t : PTable,
      find_max_prevalence_table additive3Model [(2 : ℚ)/5, 2/5, 2/5] (85/100) c5sol
        true (1/10^12) = .ok t ∧
      |t.prevalence - 48/10^4| ≤ 1/10^4 ∧
      |t.prevalence - 482966795815766/10^17| ≤ 1/10^16 ∧
      |t.heritability - 85/100| ≤ 1/10^12 ∧
      |t.solution.1 - 408906702591303/10^25| ≤ 1/10^25 ∧
      t.solution.2 = 528760766072850/10^13 := by
  have hv : validMafs additive3Model.order [(2 : ℚ)/5, 2/5, 2/5] = true := by
    rw [validMafs]
    norm_num [additive3Model]
  obtain ⟨h1, h2, h3⟩ := c5_stats
  exact ⟨_, find_max_prevalence_eq_ok hv c5_checkInterval (Or.inr h3),
    h1, h2, h3, c5_x_close, rfl⟩

/-! ### The order-2 model3 scenario of the example notebook -/

/-- Genotype labels of the order-2 model named model3 in the example
notebook. -/
def model3Genotypes : List String :=
  ["AABB", "AABb", "AAbb", "AaBB", "AaBb", "Aabb", "aaBB", "aaBb", "aabb"]

/-- Penetrance expressions of model3: x everywhere except x times 1 plus y at
the four genotypes carrying a minor allele at both loci. -/
def model3Penetrances : List Expr :=
  [.var "x", .var "x", .var "x", .var "x",
   .mul (.var "x") (.add (.const 1) (.var "y")),
   .mul (.var "x") (.add (.const 1) (.var "y")),
   .var "x",
   .mul (.var "x") (.add (.const 1) (.var "y")),
   .mul (.var "x") (.add (.const 1) (.var "y"))]

/-- The model the notebook builds from two parallel sequences with the
model_name argument model3. -/
def model3 : Model := ⟨some "model3", 2, model3Genotypes, model3Penetrances⟩

/-- Documented reference value of y for the model3 max-prevalence solve at
MAFs 0.1 and heritability 0.96. -/
def c9y : ℚ := 664819944598339 / 10^12

/-- Solver candidate for the model3 scenario: the boundary substitution pins
the largest penetrance x times 1 plus y at 1. -/
def c9sol : ℚ × ℚ := (1/(1+c9y), c9y)

theorem c9_materialize :
    materialize model3.penetrances c9sol =
      [1/(1+c9y), 1/(1+c9y), 1/(1+c9y), 1/(1+c9y),
       1/(1+c9y) * (1+c9y), 1/(1+c9y) * (1+c9y),
       1/(1+c9y),
       1/(1+c9y) * (1+c9y), 1/(1+c9y) * (1+c9y)] := by
  rw [show model3.penetrances = model3Penetrances from rfl, model3Penetrances, materialize]
  simp [Expr.eval, solEnv, c9sol]

theorem c9_freqs :
    genotypeFreqs [(1 : ℚ)/10, 1/10] =
      [6561/10000, 1458/10000, 81/10000, 1458/10000, 324/10000, 18/10000,
       81/10000, 18/10000, 1/10000] := by
  simp [genotypeFreqs, hwProportions]
  norm_num

theorem c9_checkInterval :
    checkInterval (materialize model3.penetrances c9sol) = true := by
  rw [c9_materialize, checkInterval]
  simp only [List.all_cons, List.all_nil, Bool.and_eq_true, decide_eq_true_eq, Bool.and_true]
  norm_num [c9y]

theorem c9_stats :
    |prevalenceOf (genotypeFreqs [(1 : ℚ)/10, 1/10])
        (materialize model3.penetrances c9sol) - 375476886849364/10^16| ≤ 1/10^16 ∧
    |heritabilityOf (genotypeFreqs [(1 : ℚ)/10, 1/10])
        (materialize model3.penetrances c9sol) - 96/100| ≤ 1/10^12 := by
  rw [c9_materialize, c9_freqs]
  constructor
  · rw [prevalenceOf, abs_le]
    constructor <;> norm_num [c9y]
  · rw [heritabilityOf, secondMomentOf, prevalenceOf, abs_le]
    constructor <;> norm_num [c9y]

/-- C9, evaluated on the spec-modelled engine at the failing input of the
recorded notebook run: constructing model3 from two parallel sequences with
the model_name argument yields a model named model3, and the solve the spec
requires returns a result table whose model name is that same name.  The
recorded output of the repository's own notebook prints None for this table's
model name instead, so the implementation loses the supplied name. -/
theorem C9_name_inheritance :
    mkModelFromLists model3Genotypes model3Penetrances (some "model3") = .ok model3 ∧
    model3.name = some "model3" ∧
    (∃ t : PTable,
      find_max_prevalence_table model3 [(1 : ℚ)/10, 1/10] (96/100) c9sol
        true (1/10^12) = .ok t ∧
      t.model_name = some "model3" ∧
      |t.prevalence - 375476886849364/10^16| ≤ 1/10^16) := by
  have hv : validMafs model3.order [(1 : ℚ)/10, 1/10] = true := by
    rw [validMafs]
    norm_num [model3]
  obtain ⟨h1, h2⟩ := c9_stats
  exact ⟨rfl, rfl,
    ⟨_, find_max_prevalence_eq_ok hv c9_checkInterval (Or.inr h2), rfl, h1⟩⟩

/-- Witness for C7: a MAF of exactly 0 is rejected by both solves. -/
theorem C7_invalid_maf_rejection_witness :
    find_max_prevalence_table slModel [(0 : ℚ)] (1/5) ((1 : ℚ)/2, 1) true (1/10^9)
      = .error .InvalidMAFError ∧
    find_max_heritability_table slModel [(0 : ℚ)] (1/5) ((1 : ℚ)/2, 1) true (1/10^9)
      = .error .InvalidMAFError :=
  C7_invalid_maf_rejection slModel [(0 : ℚ)] (1/5) ((1 : ℚ)/2, 1) true (1/10^9)
    (Or.inr ⟨0, by simp, Or.inl le_rfl⟩)

end PyToxo
